import Mathlib

/-!
Verification of the ice_breaker profile pipeline.

This file gives a shallow embedding of the repository's profile-resolution and
structured-extraction pipeline and proves the specification's claims about it:

* `linkedin.py` — `scrape_linkedin_profile`: HTTP body selection (mock vs
  production), extraction of the top-level `person` object, and the
  dictionary-comprehension cleaning filter.
* `output_parsers.py` — the `Summary` schema (pydantic model with a string
  `summary` field and a string-list `facts` field) and the output parsing step.
  The parse implementation itself lives in the langchain library
  (`PydanticOutputParser`), not in this repository, so the parse step is
  modelled from the spec: lenient location of the JSON payload (first opening
  brace through last closing brace), strict JSON parsing, strict validation
  against the schema, and a `SchemaValidationError` carrying the raw response
  on failure.
* `agents/linkedin_lookup_agent.py` — `lookup`: the ReAct loop is executed by
  the langchain `AgentExecutor`, not by repository code, so the loop is
  modelled from the spec (§4.1): a step-budgeted decide-act-observe loop over
  a single registered tool, failing with `ResolutionIncomplete` when the
  budget is exhausted.
* `ice_breaker.py` — `ice_break_with`: the pipeline orchestrator.

External collaborators (HTTP, the language model, the lookup agent) are
parameters of the embedding: arbitrary functions supplied by the environment.
-/

/-- JSON-like values, as produced by `response.json()` in Python.  Numbers are
modelled as integers (no claim involves fractional values). -/
inductive JVal : Type where
  | null : JVal
  | bool : Bool → JVal
  | num : Int → JVal
  | str : String → JVal
  | arr : List JVal → JVal
  | obj : List (String × JVal) → JVal

/-- Lookup of a key in an association list, taking the last binding, which
matches how `json.loads` builds a Python dict (later duplicate keys win) and
how `dict.get` then reads it. -/
def assocGetLast (kvs : List (String × JVal)) (k : String) : Option JVal :=
  (kvs.reverse.find? (fun kv => kv.1 == k)).map (fun kv => kv.2)

/-- Python `dict.get` on a JSON value: a lookup when the value is an object,
and a failure (modelled as `none`) otherwise. -/
def JVal.get : JVal → String → Option JVal
  | .obj kvs, k => assocGetLast kvs k
  | _, _ => none

/-- The Python membership test `v in ([], "", None)` used by the cleaning
filter in `scrape_linkedin_profile`.  For JSON values, Python `==` against
`[]`, `""` and `None` coincides with structural equality: no other JSON value
(including `{}`, `0` and `False`) compares equal to any of the three. -/
def pyEmpty : JVal → Bool
  | .arr [] => true
  | .str "" => true
  | .null => true
  | _ => false

/-- The dictionary comprehension of `scrape_linkedin_profile` (linkedin.py,
lines 79-84): keep a pair `(k, v)` iff `v not in ([], "", None)` and
`k not in ["certifications"]`. -/
def cleanPerson (person : List (String × JVal)) : List (String × JVal) :=
  person.filter (fun kv => !pyEmpty kv.2 && kv.1 != "certifications")

/-- The HTTP environment seen by `scrape_linkedin_profile`: `get url params`
models `requests.get(url, params=params, timeout=10).json()`, and
`scrapinApiKey` models `os.getenv("SCRAPIN_API_KEY")`. -/
structure HttpEnv where
  get : String → List (String × String) → JVal
  scrapinApiKey : String

/-- The fixed static-fixture URL substituted for the caller's URL in mock
mode (linkedin.py, line 56). -/
def mockFixtureUrl : String :=
  "https://gist.githubusercontent.com/YFolla/ff1954753eb6354728a292e77ee10795/raw/b177fcc64b7308b8b3a81eddbbb09bf647ed19c6/yfolla_linkedin.json"

/-- The production enrichment endpoint (linkedin.py, line 63). -/
def scrapinEndpoint : String := "https://api.scrapin.io/enrichment/profile"

/-- The JSON body fetched by `scrape_linkedin_profile`: in mock mode the
passed profile URL is discarded and the fixed fixture URL is fetched with no
query parameters; in production mode the enrichment endpoint is queried with
the API key and the profile URL. -/
def scrapeResponseBody (env : HttpEnv) (linkedin_profile_url : String) (mock : Bool) : JVal :=
  if mock then env.get mockFixtureUrl []
  else env.get scrapinEndpoint [("apikey", env.scrapinApiKey), ("linkedInUrl", linkedin_profile_url)]

/-- Failure of the profile data source call.  In the Python source a body
whose `person` entry is missing (or is not an object) makes
`response.json().get("person")` produce a value without `.items()`, so the
call raises instead of returning a document. -/
inductive ScrapeErr : Type where
  | dataSourceError : ScrapeErr

/-- Embedding of `scrape_linkedin_profile` (linkedin.py, lines 27-86): fetch
the body, take its top-level `person` object, and clean it; fail when the
`person` object is absent. -/
def scrape_linkedin_profile (env : HttpEnv) (linkedin_profile_url : String) (mock : Bool) :
    Except ScrapeErr (List (String × JVal)) :=
  match (scrapeResponseBody env linkedin_profile_url mock).get "person" with
  | some (.obj person) => .ok (cleanPerson person)
  | _ => .error .dataSourceError

/-- JSON whitespace. -/
def isJsonWs (c : Char) : Bool := c = ' ' || c = '\n' || c = '\t' || c = '\r'

/-- Drop leading JSON whitespace. -/
def skipWs (cs : List Char) : List Char := cs.dropWhile isJsonWs

/-- Parse the body of a JSON string after its opening quote, up to the
closing quote.  The escapes for quote and backslash keep the escaped
character; other characters are kept as they stand. -/
def parseStringBody : List Char → Option (List Char × List Char)
  | [] => none
  | c :: cs =>
      if c = '"' then some ([], cs)
      else if c = '\\' then
        match cs with
        | [] => none
        | d :: cs2 => (parseStringBody cs2).map (fun p => (d :: p.1, p.2))
      else (parseStringBody cs).map (fun p => (c :: p.1, p.2))

/-- Decimal digits to a natural number. -/
def digitsToNat (ds : List Char) : Nat := ds.foldl (fun a c => a * 10 + (c.toNat - 48)) 0

/-- Parse an integer JSON number. -/
def parseNumber (cs : List Char) : Option (JVal × List Char) :=
  match cs with
  | '-' :: rest =>
      let ds := rest.takeWhile Char.isDigit
      if ds.isEmpty then none
      else some (.num (-(digitsToNat ds : Int)), rest.dropWhile Char.isDigit)
  | _ =>
      let ds := cs.takeWhile Char.isDigit
      if ds.isEmpty then none
      else some (.num (digitsToNat ds), cs.dropWhile Char.isDigit)

/-- Head test: whether a character list starts with the given character. -/
def headIs (c : Char) : List Char → Bool
  | [] => false
  | d :: _ => d == c

/-- Expect an exact literal (the tails of true, false, null). -/
def dropLit : List Char → List Char → Option (List Char)
  | [], cs => some cs
  | _ :: _, [] => none
  | l :: ls, c :: cs => if c = l then dropLit ls cs else none

mutual

/-- Modelled from the spec: recursive-descent parse of one JSON value, with a
fuel bound.  Returns the value and the unconsumed remainder. -/
def parseValue : Nat → List Char → Option (JVal × List Char)
  | 0, _ => none
  | fuel + 1, cs =>
    let r := skipWs cs
    bif headIs '{' r then
      (let r1 := skipWs r.tail
       bif headIs '}' r1 then some (.obj [], r1.tail)
       else (parseMembers fuel r1).map (fun p => (.obj p.1, p.2)))
    else bif headIs '[' r then
      (let r1 := skipWs r.tail
       bif headIs ']' r1 then some (.arr [], r1.tail)
       else (parseItems fuel r1).map (fun p => (.arr p.1, p.2)))
    else bif headIs '"' r then
      (parseStringBody r.tail).map (fun p => (.str (String.mk p.1), p.2))
    else bif headIs 't' r then
      (dropLit "rue".data r.tail).map (fun r2 => (.bool true, r2))
    else bif headIs 'f' r then
      (dropLit "alse".data r.tail).map (fun r2 => (.bool false, r2))
    else bif headIs 'n' r then
      (dropLit "ull".data r.tail).map (fun r2 => (.null, r2))
    else parseNumber r

/-- Parse the non-empty member list of a JSON object, expecting the closing
brace after the last member (strict: no trailing comma). -/
def parseMembers : Nat → List Char → Option (List (String × JVal) × List Char)
  | 0, _ => none
  | fuel + 1, cs =>
    let r := skipWs cs
    bif headIs '"' r then
      (match parseStringBody r.tail with
       | none => none
       | some (k, r1) =>
         let r2 := skipWs r1
         bif headIs ':' r2 then
           (match parseValue fuel r2.tail with
            | none => none
            | some (v, r3) =>
              let r4 := skipWs r3
              bif headIs ',' r4 then
                (parseMembers fuel r4.tail).map (fun p => ((String.mk k, v) :: p.1, p.2))
              else bif headIs '}' r4 then some ([(String.mk k, v)], r4.tail)
              else none)
         else none)
    else none

/-- Parse the non-empty item list of a JSON array, expecting the closing
bracket after the last item (strict: no trailing comma). -/
def parseItems : Nat → List Char → Option (List JVal × List Char)
  | 0, _ => none
  | fuel + 1, cs =>
    match parseValue fuel cs with
    | none => none
    | some (v, r1) =>
      let r2 := skipWs r1
      bif headIs ',' r2 then (parseItems fuel r2.tail).map (fun p => (v :: p.1, p.2))
      else bif headIs ']' r2 then some ([v], r2.tail)
      else none

end

/-- Strict parse of a whole region as one JSON value: the parse must consume
everything but trailing whitespace.  The fuel `length + 1` dominates the
recursion depth of any value the region can denote. -/
def parseJsonText (cs : List Char) : Option JVal :=
  match parseValue (cs.length + 1) cs with
  | some (v, rest) => if (skipWs rest).isEmpty then some v else none
  | none => none

/-- Drop characters up to (and keeping) the first opening brace. -/
def dropToOpen : List Char → List Char
  | [] => []
  | c :: cs => if c = '{' then c :: cs else dropToOpen cs

/-- Drop characters up to (and keeping) the first closing brace, used on a
reversed list to trim after the last closing brace. -/
def dropToCloseRev : List Char → List Char
  | [] => []
  | c :: cs => if c = '}' then c :: cs else dropToCloseRev cs

/-- Modelled from the spec: lenient location of the JSON payload inside a raw
model response — the region from the first opening brace through the last
closing brace, prose around it discarded. -/
def locateJsonRegion (cs : List Char) : List Char :=
  (dropToCloseRev (dropToOpen cs).reverse).reverse

/-- The `Summary` schema of output_parsers.py: a string `summary` and a list
of string `facts`, both required. -/
structure Summary where
  summary : String
  facts : List String

/-- Failure of the extraction stage, carrying the raw model response for
diagnostics (the spec's `SchemaValidationError`). -/
inductive ExtractErr : Type where
  | schemaValidationError : String → ExtractErr

/-- Check that every element of a JSON array is a string, returning the
strings. -/
def allStrings : List JVal → Option (List String)
  | [] => some []
  | .str s :: xs => (allStrings xs).map (fun r => s :: r)
  | _ => none

/-- Modelled from the spec: strict validation of a parsed JSON value against
the `Summary` schema — the value must be an object whose `summary` member is
a string and whose `facts` member is an array of strings; extra members are
ignored and nothing is defaulted. -/
def validateSummary (j : JVal) : Option Summary :=
  match j with
  | .obj kvs =>
      match assocGetLast kvs "summary", assocGetLast kvs "facts" with
      | some (.str s), some (.arr xs) =>
          match allStrings xs with
          | some fs => some ⟨s, fs⟩
          | none => none
      | _, _ => none
  | _ => none

/-- Modelled from the spec: the Extractor's response-processing step (the
`parse` method of the repository's `summary_output_parser`, implemented in the
langchain library) — locate the JSON payload leniently, parse it strictly,
validate it strictly against the `Summary` schema, and on any failure produce
a `SchemaValidationError` carrying the raw response. -/
def summaryOutputParse (raw : String) : Except ExtractErr Summary :=
  match parseJsonText (locateJsonRegion raw.data) with
  | some j =>
      match validateSummary j with
      | some s => .ok s
      | none => .error (.schemaValidationError raw)
  | none => .error (.schemaValidationError raw)

/-- Serialized form (character list) of a JSON string-array, one fact per
string, comma separated without spaces, as in the spec's example. -/
def renderFactsChars : List String → List Char
  | [] => []
  | [f] => '"' :: f.data ++ ['"']
  | f :: fs => '"' :: f.data ++ '"' :: ',' :: renderFactsChars fs

/-- Characters between the braces of a serialized schema-conforming summary
object, in the spec's example format. -/
def innerSummaryChars (s : String) (facts : List String) : List Char :=
  '"' :: "summary".data ++ '"' :: ':' :: ' ' :: '"' :: s.data ++
    '"' :: ',' :: ' ' :: '"' :: "facts".data ++ '"' :: ':' :: ' ' :: '[' ::
      renderFactsChars facts ++ [']']

/-- Serialized form (character list) of a schema-conforming summary object. -/
def renderSummaryChars (s : String) (facts : List String) : List Char :=
  '{' :: innerSummaryChars s facts ++ ['}']

/-- Serialized schema-conforming JSON object for a summary, as a string. -/
def renderSummary (s : String) (facts : List String) : String :=
  String.mk (renderSummaryChars s facts)

/-- Characters that need no escaping inside a JSON string literal. -/
def plainChar (c : Char) : Bool := c != '"' && c != '\\'

/-- Strings whose serialized JSON form needs no escapes. -/
def plainStr (s : String) : Bool := s.data.all plainChar

/-- The JSON value denoted by a serialized summary object. -/
def summaryJ (s : String) (facts : List String) : JVal :=
  .obj [("summary", .str s), ("facts", .arr (facts.map JVal.str))]

/-- One parsed step of the ReAct loop: either a tool invocation or a final
answer. -/
inductive AgentStep : Type where
  | action : String → String → AgentStep
  | finalAnswer : String → AgentStep

/-- Failures of the resolution loop (spec §7): exhausted step budget, or a
step naming an unregistered tool. -/
inductive ResolveErr : Type where
  | resolutionIncomplete : ResolveErr
  | unknownTool : String → ResolveErr

/-- The single registered tool of the lookup agent
(agents/linkedin_lookup_agent.py, line 85). -/
def registeredToolName : String := "crawl Google 4 linkedin profile"

/-- Modelled from the spec (§4.1): the ReAct decide-act-observe loop executed
for `lookup` by the langchain `AgentExecutor` (library code, not in this
repository's source).  `model` maps the accumulated transcript of
(step, observation) pairs to the next parsed step; `tool` is the search tool.
The loop is bounded by a step budget; a final step returns the trimmed
answer, an action step on the registered tool appends its observation and
continues, and an exhausted budget fails with `ResolutionIncomplete`.  The
returned number counts the steps taken. -/
def reactResolve (model : List (AgentStep × String) → AgentStep) (tool : String → String) :
    Nat → List (AgentStep × String) → Except ResolveErr String × Nat
  | 0, _ => (.error .resolutionIncomplete, 0)
  | budget + 1, transcript =>
    match model transcript with
    | .finalAnswer a => (.ok a.trim, 1)
    | .action toolName toolInput =>
        if toolName = registeredToolName then
          let observation := tool toolInput
          let next := reactResolve model tool budget
            (transcript ++ [(.action toolName toolInput, observation)])
          (next.1, next.2 + 1)
        else (.error (.unknownTool toolName), 1)

mutual

/-- Python `str`/`repr` rendering of a JSON value, used when the cleaned
profile document is substituted into the prompt template. -/
def pyReprVal : JVal → String
  | .null => "None"
  | .bool true => "True"
  | .bool false => "False"
  | .num n => toString n
  | .str s => "\x22" ++ s ++ "\x22"
  | .arr xs => "[" ++ pyReprVals xs ++ "]"
  | .obj kvs => "\x7b" ++ pyReprPairs kvs ++ "\x7d"

/-- Comma-separated rendering of a list of JSON values. -/
def pyReprVals : List JVal → String
  | [] => ""
  | [v] => pyReprVal v
  | v :: vs => pyReprVal v ++ ", " ++ pyReprVals vs

/-- Comma-separated rendering of the members of a JSON object. -/
def pyReprPairs : List (String × JVal) → String
  | [] => ""
  | [(k, v)] => "\x22" ++ k ++ "\x22: " ++ pyReprVal v
  | (k, v) :: kvs => "\x22" ++ k ++ "\x22: " ++ pyReprVal v ++ ", " ++ pyReprPairs kvs

end

/-- The format instructions generated once from the `Summary` schema by the
output parser (deterministic text; its exact wording is irrelevant to every
claim, so it is abbreviated here). -/
def formatInstructionsText : String :=
  "The output should be formatted as a JSON instance that conforms to the JSON schema with a required string field summary and a required string-array field facts."

/-- The summary prompt template of `ice_break_with` (ice_breaker.py, lines
65-68). -/
def summary_template : String :=
  "given the LinkedIn information {information} about a person, I want you to create a short summary of 2-3 sentences that includes two interesting facts about them.\n{format_instructions}"

/-- Filling the prompt template: the runtime `information` variable and the
partial `format_instructions` variable are substituted into the template. -/
def buildSummaryPrompt (information : String) : String :=
  (summary_template.replace "{information}" information).replace
    "{format_instructions}" formatInstructionsText

/-- The external collaborators of the pipeline: the lookup agent (resolver),
the HTTP environment, and the language model of the summary chain (prompt
text in, raw response out). -/
structure Collaborators where
  lookupAgent : String → String
  http : HttpEnv
  llm : String → String

/-- Failures propagated by the orchestrator. -/
inductive PipelineErr : Type where
  | dataSource : ScrapeErr → PipelineErr
  | extraction : ExtractErr → PipelineErr

/-- Embedding of `ice_break_with` (ice_breaker.py, lines 28-90): resolve the
name to a profile identifier, call the data source with it, run the summary
chain (prompt, model, output parse) on the cleaned document, and return the
structured summary paired with the document's `photoUrl` entry.  The second
component records the argument of every data-source call the run performs:
the source calls `scrape_linkedin_profile` exactly once, unconditionally,
with the resolver's result. -/
def ice_break_with (c : Collaborators) (name : String) :
    Except PipelineErr (Summary × Option JVal) × List String :=
  let linkedin_username := c.lookupAgent name
  let outcome : Except PipelineErr (Summary × Option JVal) :=
    match scrape_linkedin_profile c.http linkedin_username false with
    | .error e => .error (.dataSource e)
    | .ok linkedin_data =>
        match summaryOutputParse
            (c.llm (buildSummaryPrompt (pyReprVal (.obj linkedin_data)))) with
        | .error e => .error (.extraction e)
        | .ok result => .ok (result, assocGetLast linkedin_data "photoUrl")
  (outcome, [linkedin_username])

/-- The spec's example raw profile document for the cleaning filter. -/
def cleaningExampleDoc : List (String × JVal) :=
  [("name", .str "X"), ("certifications", .arr [.str "c1"]),
   ("bio", .str ""), ("skills", .arr [.str "s1"])]

/-- A raw profile document distinguishing the three removed empty values from
other empty-looking values (an empty object, zero, and false). -/
def emptyLookalikeDoc : List (String × JVal) :=
  [("emptyObject", .obj []), ("zero", .num 0), ("flag", .bool false),
   ("emptyList", .arr []), ("emptyString", .str ""), ("missing", .null),
   ("certifications", .str "c1")]

/-- Collaborators whose resolver returns the empty identifier. -/
def collabEmptyResolver : Collaborators :=
  ⟨fun _ => "", ⟨fun _ _ => .obj [], "api-key"⟩, fun _ => ""⟩

/-- An HTTP environment whose responses lack the top-level person object. -/
def envNoPerson : HttpEnv :=
  ⟨fun _ _ => .obj [("data", .null)], "api-key"⟩

/-- A model stub that always emits an action on the registered tool and never
a final answer. -/
def alwaysActionModel : List (AgentStep × String) → AgentStep :=
  fun _ => .action registeredToolName "Jane Doe LinkedIn profile"

/-- A search tool stub returning a fixed observation. -/
def constSearchTool : String → String := fun _ => "search result snippet"

/-- A schema-conforming raw model response used by the successful-pipeline
scenario. -/
def adaResponse : String :=
  renderSummary "Ada is a pioneer." ["first fact", "second fact"]

/-- Collaborators for a successful end-to-end run with a photoUrl present. -/
def adaCollab : Collaborators :=
  ⟨fun _ => "https://www.linkedin.com/in/ada",
   ⟨fun _ _ => .obj [("person", .obj
      [("name", .str "Ada Lovelace"), ("bio", .str ""),
       ("photoUrl", .str "https://img.example/ada.jpg")])], "api-key"⟩,
   fun _ => adaResponse⟩

/-- The cleaned document produced by the data source of `adaCollab`. -/
def adaCleanDoc : List (String × JVal) :=
  [("name", .str "Ada Lovelace"), ("photoUrl", .str "https://img.example/ada.jpg")]

/-- A raw model response containing no JSON object at all. -/
def noJsonResponse : String := "I could not produce a summary for this person."

/-- A schema-conforming raw model response used to exhibit determinism of the
extraction stage. -/
def idempotenceResponse : String :=
  "Sure. " ++ renderSummary "B is a writer." ["fact A"]

theorem pyEmpty_eq_false_iff (v : JVal) :
    pyEmpty v = false ↔ (v ≠ .arr [] ∧ v ≠ .str "" ∧ v ≠ .null) := by
  rw [pyEmpty.eq_def]
  split <;> simp_all

/-- C1 (counterexample): with a resolver that returns the empty identifier,
the orchestrator still calls the profile data source, with the empty string
as the identifier, and the run fails with the data-source failure rather
than aborting with any ProfileNotFound condition before the call. -/
theorem iceBreak_empty_resolver_calls_data_source :
    (ice_break_with collabEmptyResolver "Jane Doe").2 = [""] ∧
      (ice_break_with collabEmptyResolver "Jane Doe").1 =
        .error (.dataSource .dataSourceError) :=
  ⟨rfl, rfl⟩

/-- C1 (amended): the orchestrator performs no emptiness check on the
resolver's result — `ice_break_with` always calls the profile data source
exactly once, with exactly the resolver's result, empty or not. -/
theorem iceBreak_always_calls_data_source (c : Collaborators) (name : String) :
    (ice_break_with c name).2 = [c.lookupAgent name] := rfl

/-- C2: with any model behaviour that always emits an action on the
registered tool and never a final answer, the resolution loop terminates
after exactly its step budget and fails with ResolutionIncomplete, for every
budget and every starting transcript. -/
theorem reactResolve_incomplete_on_always_action
    (model : List (AgentStep × String) → AgentStep) (tool : String → String)
    (halways : ∀ t, ∃ q, model t = .action registeredToolName q) :
    ∀ (budget : Nat) (t : List (AgentStep × String)),
      reactResolve model tool budget t = (.error .resolutionIncomplete, budget) := by
  intro budget
  induction budget with
  | zero => intro t; rfl
  | succ b ih =>
      intro t
      obtain ⟨q, hq⟩ := halways t
      simp only [reactResolve, hq, if_pos, ih]

/-- C2 (witness): with a step budget of 1 and a model stub that always emits
an action, the loop fails with ResolutionIncomplete after exactly 1 step. -/
theorem reactResolve_incomplete_witness :
    reactResolve alwaysActionModel constSearchTool 1 [] =
      (.error .resolutionIncomplete, 1) :=
  reactResolve_incomplete_on_always_action alwaysActionModel constSearchTool
    (fun _ => ⟨"Jane Doe LinkedIn profile", rfl⟩) 1 []

/-- C3: every pair kept by the cleaning filter has a non-empty value and a
key different from certifications, and cleaning the spec's example document
yields exactly the name and skills pairs. -/
theorem cleanPerson_no_empty_no_certifications :
    (∀ (d : List (String × JVal)) (k : String) (v : JVal),
        (k, v) ∈ cleanPerson d → pyEmpty v = false ∧ k ≠ "certifications") ∧
      cleanPerson cleaningExampleDoc =
        [("name", .str "X"), ("skills", .arr [.str "s1"])] := by
  constructor
  · intro d k v h
    have h2 := (List.mem_filter.mp h).2
    rw [Bool.and_eq_true] at h2
    refine ⟨?_, ?_⟩
    · have h3 := h2.1
      cases hpe : pyEmpty v with
      | false => rfl
      | true => rw [hpe] at h3; exact absurd h3 (by simp)
    · exact bne_iff_ne.mp h2.2
  · rfl

/-- C3 (witness): the name pair of the example document is kept, so its value
is non-empty and its key is not certifications. -/
theorem cleanPerson_no_empty_witness :
    pyEmpty (.str "X") = false ∧ "name" ≠ "certifications" :=
  cleanPerson_no_empty_no_certifications.1 cleaningExampleDoc "name" (.str "X")
    (List.mem_cons_self _ _)

/-- C6: whenever the JSON body of the profile-data response lacks the
expected top-level person object, the data source call fails with the
data-source failure. -/
theorem scrape_missing_person_fails (env : HttpEnv) (url : String) (mock : Bool)
    (hperson : (scrapeResponseBody env url mock).get "person" = none) :
    scrape_linkedin_profile env url mock = .error .dataSourceError := by
  unfold scrape_linkedin_profile
  rw [hperson]

/-- C6 (witness): a response body with no person entry makes the call fail. -/
theorem scrape_missing_person_witness :
    scrape_linkedin_profile envNoPerson "https://www.linkedin.com/in/x" false =
      .error .dataSourceError :=
  scrape_missing_person_fails envNoPerson "https://www.linkedin.com/in/x" false rfl

/-- C9: in mock mode the profile-URL argument has no influence on the result —
any two URLs produce identical cleaned documents under the same HTTP
environment, because the passed URL is discarded in favour of the fixed
fixture URL. -/
theorem scrape_mock_ignores_url (env : HttpEnv) (url1 url2 : String) :
    scrape_linkedin_profile env url1 true = scrape_linkedin_profile env url2 true := rfl

/-- C10: the cleaning filter removes exactly the pairs whose value equals the
empty list, the empty string, or null (besides the certifications key); any
other empty-looking value — an empty object, zero, false — is retained, as
the example document shows. -/
theorem cleanPerson_removes_exactly_three_empties :
    (∀ (d : List (String × JVal)) (k : String) (v : JVal),
        (k, v) ∈ cleanPerson d ↔
          ((k, v) ∈ d ∧ (v ≠ .arr [] ∧ v ≠ .str "" ∧ v ≠ .null) ∧
            k ≠ "certifications")) ∧
      cleanPerson emptyLookalikeDoc =
        [("emptyObject", .obj []), ("zero", .num 0), ("flag", .bool false)] := by
  constructor
  · intro d k v
    rw [cleanPerson, List.mem_filter, Bool.and_eq_true]
    constructor
    · rintro ⟨hmem, hp, hk⟩
      refine ⟨hmem, ?_, bne_iff_ne.mp hk⟩
      rw [← pyEmpty_eq_false_iff]
      cases hpe : pyEmpty v with
      | false => rfl
      | true => rw [hpe] at hp; exact absurd hp (by simp)
    · rintro ⟨hmem, hv, hk⟩
      refine ⟨hmem, ?_, bne_iff_ne.mpr hk⟩
      rw [(pyEmpty_eq_false_iff v).mpr hv]
      rfl
  · rfl

/-- C10 (witness): the zero-valued pair of the example document is retained
by the cleaning filter. -/
theorem cleanPerson_retains_zero_witness :
    ("zero", JVal.num 0) ∈ cleanPerson emptyLookalikeDoc :=
  (cleanPerson_removes_exactly_three_empties.1 emptyLookalikeDoc "zero" (.num 0)).mpr
    ⟨by simp [emptyLookalikeDoc],
     ⟨fun h => JVal.noConfusion h, fun h => JVal.noConfusion h,
      fun h => JVal.noConfusion h⟩,
     by decide⟩


theorem parseValue_succ_quote (f : Nat) (cs tail : List Char)
    (hskip : skipWs cs = '"' :: tail) :
    parseValue (f + 1) cs =
      (parseStringBody tail).map (fun p => (.str (String.mk p.1), p.2)) := by
  rw [parseValue.eq_def]
  simp only [hskip]
  rfl

theorem parseValue_succ_obj (f : Nat) (cs tail : List Char)
    (hskip : skipWs cs = '{' :: tail) (hne : headIs '}' (skipWs tail) = false) :
    parseValue (f + 1) cs =
      (parseMembers f (skipWs tail)).map (fun p => (.obj p.1, p.2)) := by
  rw [parseValue.eq_def]
  simp only [hskip, List.tail_cons]
  rw [show headIs '{' ('{' :: tail) = true from rfl, hne]
  rfl







theorem skipWs_cons_of_not_ws (c : Char) (l : List Char) (h : isJsonWs c = false) :
    skipWs (c :: l) = c :: l := by
  simp [skipWs, List.dropWhile_cons, h]

theorem skipWs_cons_of_ws (c : Char) (l : List Char) (h : isJsonWs c = true) :
    skipWs (c :: l) = skipWs l := by
  simp [skipWs, List.dropWhile_cons, h]

theorem parseStringBody_append (s : List Char) (rest : List Char)
    (h : s.all plainChar = true) :
    parseStringBody (s ++ '"' :: rest) = some (s, rest) := by
  induction s with
  | nil =>
      rw [List.nil_append, parseStringBody.eq_def]
      simp
  | cons c cs ih =>
      rw [List.all_cons, Bool.and_eq_true] at h
      have hc := h.1
      rw [plainChar, Bool.and_eq_true] at hc
      have hc1 : ¬(c = '"') := by simpa using hc.1
      have hc2 : ¬(c = '\\') := by simpa using hc.2
      rw [List.cons_append, parseStringBody.eq_def]
      simp [hc1, hc2, ih h.2]

theorem parseValue_str (f : Nat) (cs : List Char) (s : String) (rest : List Char)
    (hskip : skipWs cs = '"' :: (s.data ++ '"' :: rest))
    (hs : plainStr s = true) (hf : 1 ≤ f) :
    parseValue f cs = some (.str s, rest) := by
  cases f with
  | zero => omega
  | succ f =>
      rw [plainStr] at hs
      rw [parseValue_succ_quote f cs (s.data ++ '"' :: rest) hskip,
          parseStringBody_append s.data rest hs]
      rfl

theorem parseItems_render :
    ∀ (facts : List String) (f : Nat) (rest : List Char), facts ≠ [] →
      facts.all plainStr = true → facts.length + 1 ≤ f →
      parseItems f (renderFactsChars facts ++ ']' :: rest) =
        some (facts.map JVal.str, rest) := by
  intro facts
  induction facts with
  | nil => intro f rest h; exact absurd rfl h
  | cons x fs ih =>
      intro f rest _ hall hfuel
      rw [List.all_cons, Bool.and_eq_true] at hall
      cases f with
      | zero => simp at hfuel
      | succ f =>
          have hf1 : 1 ≤ f := by simp only [List.length_cons] at hfuel; omega
          cases fs with
          | nil =>
              have hcs : renderFactsChars [x] ++ ']' :: rest =
                  '"' :: (x.data ++ '"' :: ']' :: rest) := by
                simp [renderFactsChars]
              rw [parseItems.eq_def]
              have hv := parseValue_str f (renderFactsChars [x] ++ ']' :: rest) x
                (']' :: rest)
                (by rw [hcs]; exact skipWs_cons_of_not_ws _ _ rfl) hall.1 hf1
              simp only [hv, skipWs_cons_of_not_ws ']' rest rfl]
              rfl
          | cons y ys =>
              have hcs : renderFactsChars (x :: y :: ys) ++ ']' :: rest =
                  '"' :: (x.data ++ '"' :: ',' ::
                    (renderFactsChars (y :: ys) ++ ']' :: rest)) := by
                simp [renderFactsChars]
              rw [parseItems.eq_def]
              have hv := parseValue_str f (renderFactsChars (x :: y :: ys) ++ ']' :: rest) x
                (',' :: (renderFactsChars (y :: ys) ++ ']' :: rest))
                (by rw [hcs]; exact skipWs_cons_of_not_ws _ _ rfl) hall.1 hf1
              have hrec := ih f rest (by simp) hall.2
                (by simp only [List.length_cons] at hfuel ⊢; omega)
              simp only [hv, hrec, skipWs_cons_of_not_ws ',' _ rfl, List.tail_cons,
                Option.map_some]
              rfl

theorem renderFactsChars_cons_quote (x : String) (fs : List String) :
    ∃ t, renderFactsChars (x :: fs) = '"' :: t := by
  cases fs with
  | nil => exact ⟨_, rfl⟩
  | cons y ys => exact ⟨_, rfl⟩

theorem parseValue_arr (f : Nat) (cs : List Char) (facts : List String) (rest : List Char)
    (hskip : skipWs cs = '[' :: (renderFactsChars facts ++ ']' :: rest))
    (hall : facts.all plainStr = true) (hfuel : facts.length + 2 ≤ f) :
    parseValue f cs = some (.arr (facts.map JVal.str), rest) := by
  cases f with
  | zero => omega
  | succ f =>
      rw [parseValue.eq_def]
      simp only [hskip, List.tail_cons]
      cases facts with
      | nil =>
          simp only [renderFactsChars, List.nil_append,
            skipWs_cons_of_not_ws ']' rest rfl]
          rfl
      | cons x fs =>
          obtain ⟨t, ht⟩ := renderFactsChars_cons_quote x fs
          have h1 : skipWs (renderFactsChars (x :: fs) ++ ']' :: rest) =
              renderFactsChars (x :: fs) ++ ']' :: rest := by
            rw [ht, List.cons_append]
            exact skipWs_cons_of_not_ws _ _ rfl
          have h2 : headIs ']' (renderFactsChars (x :: fs) ++ ']' :: rest) = false := by
            rw [ht, List.cons_append]; rfl
          have h3 := parseItems_render (x :: fs) f rest (by simp) hall
            (by simp only [List.length_cons] at hfuel ⊢; omega)
          simp only [h1, h2, h3, Option.map_some]
          rfl

theorem parseMembers_facts (f : Nat) (cs : List Char) (facts : List String)
    (rest : List Char)
    (hskip : skipWs cs = '"' :: ("facts".data ++ '"' :: ':' :: ' ' :: '[' ::
      (renderFactsChars facts ++ ']' :: '}' :: rest)))
    (hall : facts.all plainStr = true) (hfuel : facts.length + 3 ≤ f) :
    parseMembers f cs = some ([("facts", .arr (facts.map JVal.str))], rest) := by
  cases f with
  | zero => omega
  | succ f =>
      rw [parseMembers.eq_def]
      simp only [hskip, List.tail_cons]
      have hk := parseStringBody_append "facts".data
        (':' :: ' ' :: '[' :: (renderFactsChars facts ++ ']' :: '}' :: rest)) rfl
      have hv := parseValue_arr f
        (' ' :: '[' :: (renderFactsChars facts ++ ']' :: '}' :: rest)) facts ('}' :: rest)
        (by rw [skipWs_cons_of_ws ' ' _ rfl]; exact skipWs_cons_of_not_ws '[' _ rfl)
        hall (by omega)
      simp only [hk, hv, skipWs_cons_of_not_ws ':' _ rfl,
        skipWs_cons_of_not_ws '}' rest rfl, List.tail_cons, Option.map_some]
      rfl

theorem parseMembers_render (f : Nat) (cs : List Char) (s : String)
    (facts : List String) (rest : List Char)
    (hskip : skipWs cs = '"' :: ("summary".data ++ '"' :: ':' :: ' ' :: '"' ::
      (s.data ++ '"' :: ',' :: ' ' :: '"' :: ("facts".data ++ '"' :: ':' :: ' ' :: '[' ::
        (renderFactsChars facts ++ ']' :: '}' :: rest)))))
    (hs : plainStr s = true) (hall : facts.all plainStr = true)
    (hfuel : facts.length + 4 ≤ f) :
    parseMembers f cs =
      some ([("summary", .str s), ("facts", .arr (facts.map JVal.str))], rest) := by
  cases f with
  | zero => omega
  | succ f =>
      rw [parseMembers.eq_def]
      simp only [hskip, List.tail_cons]
      have hk := parseStringBody_append "summary".data
        (':' :: ' ' :: '"' :: (s.data ++ '"' :: ',' :: ' ' :: '"' ::
          ("facts".data ++ '"' :: ':' :: ' ' :: '[' ::
            (renderFactsChars facts ++ ']' :: '}' :: rest)))) rfl
      have hv := parseValue_str f
        (' ' :: '"' :: (s.data ++ '"' :: ',' :: ' ' :: '"' ::
          ("facts".data ++ '"' :: ':' :: ' ' :: '[' ::
            (renderFactsChars facts ++ ']' :: '}' :: rest)))) s
        (',' :: ' ' :: '"' :: ("facts".data ++ '"' :: ':' :: ' ' :: '[' ::
          (renderFactsChars facts ++ ']' :: '}' :: rest)))
        (by rw [skipWs_cons_of_ws ' ' _ rfl]; exact skipWs_cons_of_not_ws '"' _ rfl)
        hs (by omega)
      have hm := parseMembers_facts f
        (' ' :: '"' :: ("facts".data ++ '"' :: ':' :: ' ' :: '[' ::
          (renderFactsChars facts ++ ']' :: '}' :: rest))) facts rest
        (by rw [skipWs_cons_of_ws ' ' _ rfl]; exact skipWs_cons_of_not_ws '"' _ rfl)
        hall (by omega)
      simp only [hk, hv, hm, skipWs_cons_of_not_ws ':' _ rfl,
        skipWs_cons_of_not_ws ',' _ rfl, List.tail_cons, Option.map_some]
      rfl

theorem parseValue_render (F : Nat) (s : String) (facts : List String)
    (rest : List Char) (hs : plainStr s = true) (hall : facts.all plainStr = true)
    (hF : facts.length + 5 ≤ F) :
    parseValue F (renderSummaryChars s facts ++ rest) =
      some (summaryJ s facts, rest) := by
  cases F with
  | zero => omega
  | succ F =>
      have hcs : renderSummaryChars s facts ++ rest =
          '{' :: (innerSummaryChars s facts ++ '}' :: rest) := by
        simp [renderSummaryChars]
      have hinner : innerSummaryChars s facts ++ '}' :: rest =
          '"' :: ("summary".data ++ '"' :: ':' :: ' ' :: '"' ::
            (s.data ++ '"' :: ',' :: ' ' :: '"' :: ("facts".data ++ '"' :: ':' :: ' ' :: '[' ::
              (renderFactsChars facts ++ ']' :: '}' :: rest)))) := by
        simp [innerSummaryChars]
      rw [parseValue_succ_obj F (renderSummaryChars s facts ++ rest)
        (innerSummaryChars s facts ++ '}' :: rest)
        (by rw [hcs]; exact skipWs_cons_of_not_ws '{' _ rfl)
        (by rw [hinner, skipWs_cons_of_not_ws '"' _ rfl]; rfl)]
      have hm := parseMembers_render F (skipWs (innerSummaryChars s facts ++ '}' :: rest))
        s facts rest
        (by rw [hinner, skipWs_cons_of_not_ws '"' _ rfl,
              skipWs_cons_of_not_ws '"' _ rfl]) hs hall (by omega)
      rw [hm]
      rfl








theorem renderFactsChars_length (facts : List String) :
    facts.length ≤ (renderFactsChars facts).length := by
  induction facts with
  | nil => simp [renderFactsChars]
  | cons x fs ih =>
      cases fs with
      | nil => simp [renderFactsChars]
      | cons y ys =>
          simp only [renderFactsChars, List.length_cons, List.length_append] at ih ⊢
          omega

theorem parseJsonText_render (s : String) (facts : List String)
    (hs : plainStr s = true) (hall : facts.all plainStr = true) :
    parseJsonText (renderSummaryChars s facts) = some (summaryJ s facts) := by
  have hflen := renderFactsChars_length facts
  have hlen : facts.length + 5 ≤ (renderSummaryChars s facts).length + 1 := by
    have h7 : ("summary".data).length = 7 := rfl
    have h5 : ("facts".data).length = 5 := rfl
    simp only [renderSummaryChars, innerSummaryChars, List.length_cons,
      List.length_append, h7, h5]
    omega
  have h := parseValue_render ((renderSummaryChars s facts).length + 1) s facts []
    hs hall hlen
  rw [List.append_nil] at h
  rw [parseJsonText, h]
  rfl

theorem dropToOpen_append (l r : List Char)
    (h : l.all (fun c => c != '{') = true) :
    dropToOpen (l ++ '{' :: r) = '{' :: r := by
  induction l with
  | nil => simp [dropToOpen]
  | cons c cs ih =>
      rw [List.all_cons, Bool.and_eq_true] at h
      have hc : ¬(c = '{') := by simpa using h.1
      rw [List.cons_append, dropToOpen.eq_def]
      simp [hc, ih h.2]

theorem dropToCloseRev_append (l r : List Char)
    (h : l.all (fun c => c != '}') = true) :
    dropToCloseRev (l ++ '}' :: r) = '}' :: r := by
  induction l with
  | nil => simp [dropToCloseRev]
  | cons c cs ih =>
      rw [List.all_cons, Bool.and_eq_true] at h
      have hc : ¬(c = '}') := by simpa using h.1
      rw [List.cons_append, dropToCloseRev.eq_def]
      simp [hc, ih h.2]

theorem locate_render (pre post : String) (s : String) (facts : List String)
    (hpre : pre.data.all (fun c => c != '{') = true)
    (hpost : post.data.all (fun c => c != '}') = true) :
    locateJsonRegion (pre ++ renderSummary s facts ++ post).data =
      renderSummaryChars s facts := by
  have hdata : (pre ++ renderSummary s facts ++ post).data =
      pre.data ++ '{' :: (innerSummaryChars s facts ++ '}' :: post.data) := by
    have hm : (renderSummary s facts).data = renderSummaryChars s facts := rfl
    simp [String.data_append, hm, renderSummaryChars]
  rw [locateJsonRegion, hdata, dropToOpen_append _ _ hpre]
  have hrev : ('{' :: (innerSummaryChars s facts ++ '}' :: post.data)).reverse =
      post.data.reverse ++ '}' :: ((innerSummaryChars s facts).reverse ++ ['{']) := by
    simp
  rw [hrev, dropToCloseRev_append _ _ (by rw [List.all_reverse]; exact hpost)]
  simp [renderSummaryChars]

theorem allStrings_map (facts : List String) :
    allStrings (facts.map JVal.str) = some facts := by
  induction facts with
  | nil => rfl
  | cons x fs ih =>
      rw [List.map_cons, allStrings.eq_def]
      simp [ih]

theorem validateSummary_summaryJ (s : String) (facts : List String) :
    validateSummary (summaryJ s facts) = some ⟨s, facts⟩ := by
  show (match allStrings (facts.map JVal.str) with
        | some fs => some ({ summary := s, facts := fs } : Summary)
        | none => none) = some ⟨s, facts⟩
  rw [allStrings_map]

/-- C4: for every raw model response consisting of a serialized
schema-conforming summary object surrounded by prose — prose before it free
of opening braces, prose after it free of closing braces, and payload strings
free of characters needing escapes — the Extractor locates the JSON payload,
parses it, and returns the corresponding structured result. -/
theorem extractor_locates_and_parses (pre post s : String) (facts : List String)
    (hpre : pre.data.all (fun c => c != '{') = true)
    (hpost : post.data.all (fun c => c != '}') = true)
    (hs : plainStr s = true) (hall : facts.all plainStr = true) :
    summaryOutputParse (pre ++ renderSummary s facts ++ post) = .ok ⟨s, facts⟩ := by
  rw [summaryOutputParse, locate_render pre post s facts hpre hpost,
    parseJsonText_render s facts hs hall]
  simp only [validateSummary_summaryJ]

/-- C4 (witness): the spec's example — prose followed by the JSON object with
summary "A is a engineer." and facts fact1, fact2 — extracts to exactly that
structured result. -/
theorem extractor_locates_witness :
    summaryOutputParse ("Here you go: " ++ renderSummary "A is a engineer."
      ["fact1", "fact2"] ++ "") = .ok ⟨"A is a engineer.", ["fact1", "fact2"]⟩ :=
  extractor_locates_and_parses "Here you go: " "" "A is a engineer."
    ["fact1", "fact2"] rfl rfl rfl rfl

/-- C5: whenever no schema-conforming JSON object can be obtained from the
raw response — nothing parseable in the located region, or a parsed value
that fails schema validation (missing required key or wrong type) — the
Extractor fails with a SchemaValidationError carrying the raw response, and
never returns a result with substituted defaults. -/
theorem extractor_failure_carries_raw (raw : String)
    (h : ∀ j, parseJsonText (locateJsonRegion raw.data) = some j →
      validateSummary j = none) :
    summaryOutputParse raw = .error (.schemaValidationError raw) := by
  rw [summaryOutputParse]
  cases hp : parseJsonText (locateJsonRegion raw.data) with
  | none => rfl
  | some j => simp only [h j hp]

/-- C5 (witness): a response containing no JSON object fails with a
SchemaValidationError that carries that very response. -/
theorem extractor_failure_witness :
    summaryOutputParse noJsonResponse =
      .error (.schemaValidationError noJsonResponse) :=
  extractor_failure_carries_raw noJsonResponse (fun _ h => nomatch h)

/-- C7: on every successful pipeline run the orchestrator pairs the
structured summary with the cleaned profile document entry under photoUrl —
present as that value, absent as none. -/
theorem orchestrator_returns_photo_url (c : Collaborators) (name : String)
    (doc : List (String × JVal)) (S : Summary) (p : Option JVal)
    (hdoc : scrape_linkedin_profile c.http (c.lookupAgent name) false = .ok doc)
    (hrun : (ice_break_with c name).1 = .ok (S, p)) :
    p = assocGetLast doc "photoUrl" := by
  simp only [ice_break_with, hdoc] at hrun
  cases hparse : summaryOutputParse
      (c.llm (buildSummaryPrompt (pyReprVal (.obj doc)))) with
  | error e => rw [hparse] at hrun; simp at hrun
  | ok r =>
      rw [hparse] at hrun
      simp only [Except.ok.injEq, Prod.mk.injEq] at hrun
      exact hrun.2.symm

/-- C7 (witness): on the successful concrete run whose cleaned document holds
a photoUrl, the returned photo is exactly that entry. -/
theorem orchestrator_photo_witness :
    (some (JVal.str "https://img.example/ada.jpg") : Option JVal) =
      assocGetLast adaCleanDoc "photoUrl" :=
  orchestrator_returns_photo_url adaCollab "Ada Lovelace" adaCleanDoc
    ⟨"Ada is a pioneer.", ["first fact", "second fact"]⟩
    (some (JVal.str "https://img.example/ada.jpg")) rfl rfl

/-- C8: the extraction stage is deterministic — two invocations of the
Extractor on identical raw responses produce identical structured results. -/
theorem extractor_deterministic (r1 r2 : String) (h : r1 = r2) :
    summaryOutputParse r1 = summaryOutputParse r2 := by rw [h]

/-- C8 (witness): two invocations on the same concrete response agree. -/
theorem extractor_deterministic_witness :
    summaryOutputParse idempotenceResponse = summaryOutputParse idempotenceResponse :=
  extractor_deterministic idempotenceResponse idempotenceResponse rfl
